import Mathlib

/-!
The nostall stall-supervised process runner.

A shallow embedding of `main.go` and `writetracker/writetracker.go`.

Conventions of the embedding.

* Instants of the wall clock (`time.Now()`) are Unix nanoseconds, an `Int`.
  A `time.Duration` is a number of nanoseconds, an `Int`; the saturation of
  `Time.Sub` to the 64-bit range of `Duration` is kept explicit.
* The operating system is an environment that supplies, per attempt, what
  `cmd.Start`, `cmd.Wait` and `isCtxClosed(cmdCtx)` returned and at which
  instant the backoff wait started. `run` is a function of that environment
  and returns its error together with the trace of the process starts and
  backoff waits it performed.
* The loop counter `try` is a Go `int`; it grows by one per started process
  and is a `Nat` here.
-/

namespace Nostall

/-! ## Errors -/

/-- The error values that flow through `run` and `main`.
`exitError` is `*exec.ExitError` with the value of its `ExitCode()` and the
text of its process state; `plain` is any error whose chain holds neither
an `*exec.ExitError` nor a `retryError` (start failures, `context.Canceled`,
results of `fmt.Errorf` with `%v`); `retryError` is `main.retryError`, which
has no `Unwrap`. -/
inductive GoError where
  | exitError (code : Int) (state : String)
  | plain (msg : String)
  | retryError (err : GoError)
  deriving DecidableEq, Repr

namespace GoError

/-- The method `Error()`. For `retryError` it is `r.err.Error()`. -/
def Error : GoError → String
  | exitError _ state => state
  | plain msg => msg
  | retryError err => err.Error

/-- The test `errors.As(err, &exitErr)` with `exitErr *exec.ExitError`,
followed by `exitErr.ExitCode()`. A `retryError` does not unwrap. -/
def asExitError : GoError → Option Int
  | exitError code _ => some code
  | plain _ => none
  | retryError _ => none

/-- The test `errors.As(err, &re)` with `re retryError`. -/
def asRetryError : GoError → Option GoError
  | exitError _ _ => none
  | plain _ => none
  | retryError err => some err

end GoError

/-- The value `context.Canceled`, the `Err()` of a cancelled `WithCancel` context. -/
def ctxCanceled : GoError := GoError.plain "context canceled"

/-- What `cmd.Wait()` can return besides `nil`: an `*exec.ExitError`
(non-zero exit, or killed by a signal, with `ExitCode() = -1`), or another
error (context error, copy error, failed `Cancel`). -/
inductive WaitError where
  | exit (code : Int) (state : String)
  | other (msg : String)
  deriving DecidableEq, Repr

/-- The error value of a failed `cmd.Wait()`. -/
def WaitError.toGo : WaitError → GoError
  | WaitError.exit code state => GoError.exitError code state
  | WaitError.other msg => GoError.plain msg

/-! ## Time -/

/-- The constant `time.Second`, in nanoseconds. -/
def second : Int := 1000000000

/-- The largest `time.Duration`. -/
def maxDuration : Int := 2 ^ 63 - 1

/-- The smallest `time.Duration`. -/
def minDuration : Int := -(2 ^ 63)

/-- The method `Time.UnixMilli` of an instant given in Unix nanoseconds. -/
def unixMilli (t : Int) : Int := t / 1000000

/-- The function `time.UnixMilli`: the instant, in Unix nanoseconds, of a
millisecond timestamp. -/
def timeUnixMilli (msec : Int) : Int := msec * 1000000

/-- The method `Time.Sub` on wall-clock instants: the difference, saturated
to the range of `Duration`. -/
def timeSub (t u : Int) : Int :=
  let d := t - u
  if d > maxDuration then maxDuration
  else if d < minDuration then minDuration
  else d

/-- The function `time.Since(t)` when the clock reads `now`. -/
def timeSince (now t : Int) : Int := timeSub now t

/-! ## writetracker -/

/-- An `io.Writer`: its state and what `Write(p)` returns and does to it. -/
structure Writer (σ : Type) where
  Write : List UInt8 → σ → (Int × Option GoError) × σ

/-- The struct `WriteTracker`: the atomic `lastUnixMilli` and the state of
the wrapped writer `w`. -/
structure WriteTracker (σ : Type) where
  lastUnixMilli : Int
  w : σ

namespace WriteTracker

variable {σ : Type}

/-- The method `updateLast` when the clock reads `now`. -/
def updateLast (t : WriteTracker σ) (now : Int) : WriteTracker σ :=
  { t with lastUnixMilli := unixMilli now }

/-- The constructor `New(w, startNow)` when the clock reads `now`. -/
def New (w : σ) (startNow : Bool) (now : Int) : WriteTracker σ :=
  let wt : WriteTracker σ := { lastUnixMilli := 0, w := w }
  if startNow then wt.updateLast now else wt

/-- The method `GetLastUnixMilli`. -/
def GetLastUnixMilli (t : WriteTracker σ) : Int := t.lastUnixMilli

/-- The method `Write(p)` when the clock reads `now`: `updateLast`, then the
wrapped writer's `Write(p)`, whose results are returned. -/
def Write (sink : Writer σ) (t : WriteTracker σ) (now : Int) (p : List UInt8) :
    (Int × Option GoError) × WriteTracker σ :=
  let t1 := t.updateLast now
  let r := sink.Write p t1.w
  (r.1, { t1 with w := r.2 })

/-- A sequence of `Write` calls, each with the clock reading taken at the
call; returns the values of `GetLastUnixMilli` observed after each call. -/
def writeAll (sink : Writer σ) : WriteTracker σ → List (Int × List UInt8) → List Int
  | _, [] => []
  | t, (now, p) :: rest =>
    let t1 := (Write sink t now p).2
    t1.GetLastUnixMilli :: writeAll sink t1 rest

end WriteTracker

/-- A writer that keeps every slice it is handed, in order, and answers
with `reply`. -/
def recorder (reply : List UInt8 → Int × Option GoError) : Writer (List (List UInt8)) where
  Write := fun p log => (reply p, log ++ [p])

/-! ## monitor -/

/-- The poll interval of `monitor`: one second, or `stallTime` when that is
shorter. -/
def checkInterval (stallTime : Int) : Int :=
  let checkInterval := 1 * second
  if stallTime < checkInterval then stallTime else checkInterval

/-- The value `lastOutputAgo` computed on a tick of `monitor` at instant
`now`, with the two trackers' timestamps. -/
def lastOutputAgo (now stdOut stdErr : Int) : Int :=
  timeSince now (timeUnixMilli (max stdOut stdErr))

/-- One tick of `monitor`: whether `kill()` is called. -/
def monitorTick (stallTime now stdOut stdErr : Int) : Bool :=
  decide (lastOutputAgo now stdOut stdErr > stallTime)

/-! ## run -/

/-- The package variables set from the command line. -/
structure Flags where
  stallTime : Int
  waitRestart : Int
  maxTries : Int
  deriving DecidableEq, Repr

/-- What the environment does during one iteration of the loop of `run`:
the message of the error of `cmd.Start()` (`none` for `nil`), the result of
`cmd.Wait()` (`none` for `nil`), the value of `isCtxClosed(cmdCtx)` after
the wait, the instant at which `sleepCtx` is entered, and the choice `select`
makes when the timer and the context are ready together (`true`: the
timer). -/
structure Attempt where
  start : Option String
  wait : Option WaitError
  cmdCtxClosed : Bool
  sleepAt : Int
  pick : Bool
  deriving DecidableEq, Repr

/-- What `run` did, in order: a call of `cmd.Start()` on attempt `tryNo` and
whether it started a process; the message `waiting ... for restart #tryNo...`
with the backoff wait that follows it. -/
inductive Event where
  | start (tryNo : Nat) (ok : Bool)
  | waiting (tryNo : Nat)
  deriving DecidableEq, Repr

/-- The result of `run` on a finite supply of attempts: `result` is `none`
while the loop is still running when the supply ends, `some err` when `run`
returned `err`. -/
structure Run where
  result : Option (Option GoError)
  trace : List Event
  deriving DecidableEq, Repr

/-- The function `sleepCtx(ctx, sleep)` entered at instant `now`. `ctx` is
the instant at which the context is cancelled (`none`: never). The timer
fires `sleep` after `now` (at once when `sleep` is not positive); `select`
takes the case that is ready first and `pick` decides a tie. -/
def sleepCtx (ctx : Option Int) (now sleep : Int) (pick : Bool) : Option GoError :=
  let timerAt := now + max sleep 0
  match ctx with
  | none => none
  | some c =>
    let doneAt := max c now
    if doneAt < timerAt then some ctxCanceled
    else if timerAt < doneAt then none
    else if pick then none else some ctxCanceled

/-- The closure run on every iteration of the loop of `run`, from
`cmd.Start()` to its return. -/
def iteration (maxTries : Int) (tryNo : Nat) (a : Attempt) : Option GoError :=
  match a.start with
  | some msg => some (GoError.plain msg)
  | none =>
    match a.wait with
    | none => none
    | some cmdErr =>
      if maxTries > 0 ∧ (tryNo : Int) ≥ maxTries then some cmdErr.toGo
      else if a.cmdCtxClosed then some (GoError.retryError cmdErr.toGo)
      else some cmdErr.toGo

/-- The loop `for try := 1; ; try++` of `run`, entered with `try = tryNo`. -/
def runLoop (f : Flags) (ctx : Option Int) : Nat → List Attempt → Run
  | _, [] => { result := none, trace := [] }
  | tryNo, a :: rest =>
    let ev := Event.start tryNo a.start.isNone
    match iteration f.maxTries tryNo a with
    | none => { result := some none, trace := [ev] }
    | some err =>
      match err.asRetryError with
      | some _ =>
        match sleepCtx ctx a.sleepAt f.waitRestart a.pick with
        | some serr =>
          { result := some (some (GoError.plain ("sleep cancelled: " ++ serr.Error))),
            trace := [ev, Event.waiting tryNo] }
        | none =>
          let r := runLoop f ctx (tryNo + 1) rest
          { result := r.result, trace := ev :: Event.waiting tryNo :: r.trace }
      | none => { result := some (some err), trace := [ev] }

/-- The function `run`, after the flags are parsed: `args` are the
positional arguments, `ctx` the instant at which a signal cancels the root
context. -/
def run (f : Flags) (args : List String) (ctx : Option Int) (envs : List Attempt) : Run :=
  if args.length = 0 then
    { result := some (some (GoError.plain "give command and parameters to run")), trace := [] }
  else runLoop f ctx 1 envs

/-- The exit status `main` ends with when `run` returned `err`. -/
def mainExit (err : Option GoError) : Int :=
  match err with
  | none => 0
  | some e =>
    match e.asExitError with
    | some code => code
    | none => 1

/-- The function `main`: the exit status, once `run` has returned. -/
def main (f : Flags) (args : List String) (ctx : Option Int) (envs : List Attempt) : Option Int :=
  (run f args ctx envs).result.map mainExit

/-- The attempts on which a process was started, in order. -/
def spawns : List Event → List Nat
  | [] => []
  | Event.start tryNo true :: tr => tryNo :: spawns tr
  | _ :: tr => spawns tr

/-- The restart numbers announced before the backoff waits, in order. -/
def restarts : List Event → List Nat
  | [] => []
  | Event.waiting tryNo :: tr => tryNo :: restarts tr
  | _ :: tr => restarts tr

/-- Whether an attempt is retried under the flags `f` and root context
`ctx`: the process starts, `cmd.Wait()` returns an error with the attempt's
context closed, and the backoff wait ends on its timer. -/
def Attempt.stalled (f : Flags) (ctx : Option Int) (a : Attempt) : Bool :=
  a.start.isNone && a.wait.isSome && a.cmdCtxClosed &&
    (sleepCtx ctx a.sleepAt f.waitRestart a.pick).isNone

/-! ## Scenarios of the test suite -/

/-- The flags of `TestRetryFail`: `-wait 1s -wait-retry 1s -max-tries 3`. -/
def retryFailFlags : Flags :=
  { stallTime := 1 * second, waitRestart := 1 * second, maxTries := 3 }

/-- The flags of `TestRetrySuccess`: `-wait 2s -wait-retry 1s -max-tries 20`. -/
def retrySuccessFlags : Flags :=
  { stallTime := 2 * second, waitRestart := 1 * second, maxTries := 20 }

/-- The default flags: one minute, ten seconds, no maximum. -/
def defaultFlags : Flags :=
  { stallTime := 60 * second, waitRestart := 10 * second, maxTries := 0 }

/-- An attempt killed by the monitor: `cmd.Wait()` reports the kill and the
attempt's context is closed. -/
def stallKilled : Attempt :=
  { start := none, wait := some (WaitError.exit (-1) "signal: killed"),
    cmdCtxClosed := true, sleepAt := 0, pick := true }

/-- An attempt killed by the monitor whose backoff wait starts at instant `t`. -/
def stallKilledAt (t : Int) : Attempt :=
  { start := none, wait := some (WaitError.exit (-1) "signal: killed"),
    cmdCtxClosed := true, sleepAt := t, pick := true }

/-- An attempt whose process exits zero. -/
def exitedZero : Attempt :=
  { start := none, wait := none, cmdCtxClosed := false, sleepAt := 0, pick := true }

/-- An attempt whose process exits with status 2 of its own accord, as
`ping` does in `TestFailRun`. -/
def exitedTwo : Attempt :=
  { start := none, wait := some (WaitError.exit 2 "exit status 2"),
    cmdCtxClosed := false, sleepAt := 0, pick := true }

/-- An attempt whose `cmd.Start()` fails, as in `TestFailStart`. -/
def startFailed : Attempt :=
  { start := some "exec: hahahahahaha: executable file not found in $PATH",
    wait := none, cmdCtxClosed := false, sleepAt := 0, pick := true }

/-! ## The monitor and the write tracker -/

/-- C10: the poll interval handed to the ticker is the lesser of one second
and the stall threshold, so it exceeds neither of them. -/
theorem checkInterval_eq_min (stallTime : Int) :
    checkInterval stallTime = min second stallTime ∧
      checkInterval stallTime ≤ stallTime ∧ checkInterval stallTime ≤ second := by
  unfold checkInterval
  simp only [one_mul]
  split_ifs with h
  · exact ⟨(min_eq_right h.le).symm, le_refl _, h.le⟩
  · exact ⟨(min_eq_left (not_lt.mp h)).symm, not_lt.mp h, le_refl _⟩

/-- C5: on a tick at instant `now` with stream timestamps `a` and `b`, and a
threshold that is a `Duration`, `kill()` is called exactly when the time since
the later of the two timestamps is strictly greater than the threshold
(the elapsed time fitting a `Duration`, or the threshold not being the
largest one); a write on either stream no older than the threshold prevents
the call, and an elapsed time equal to the threshold does not trigger it. -/
theorem monitorTick_iff (stallTime now a b : Int)
    (hs : minDuration ≤ stallTime)
    (hfit : stallTime < maxDuration ∨ now - timeUnixMilli (max a b) ≤ maxDuration) :
    (monitorTick stallTime now a b = true ↔ now - timeUnixMilli (max a b) > stallTime) ∧
      (now - timeUnixMilli a ≤ stallTime ∨ now - timeUnixMilli b ≤ stallTime →
        monitorTick stallTime now a b = false) ∧
      (now - timeUnixMilli (max a b) = stallTime → monitorTick stallTime now a b = false) := by
  have key : monitorTick stallTime now a b = true ↔
      now - timeUnixMilli (max a b) > stallTime := by
    unfold monitorTick lastOutputAgo timeSince timeSub
    simp only [decide_eq_true_eq]
    split_ifs with h1 h2
    · constructor
      · intro _; rcases hfit with h | h <;> omega
      · intro _; rcases hfit with h | h <;> omega
    · constructor
      · intro h; omega
      · intro h; omega
    · exact Iff.rfl
  refine ⟨key, ?_, ?_⟩
  · intro h
    have hmax : now - timeUnixMilli (max a b) ≤ stallTime := by
      unfold timeUnixMilli at *
      rcases h with h | h
      · have := le_max_left a b; omega
      · have := le_max_right a b; omega
    cases hk : monitorTick stallTime now a b
    · rfl
    · have := key.mp hk; omega
  · intro h
    cases hk : monitorTick stallTime now a b
    · rfl
    · have := key.mp hk; omega

/-- Witness of C5: a threshold of one minute, a tick 61 s after the epoch, last writes at 0 ms and 500 ms. -/
theorem monitorTick_iff_witness :
    minDuration ≤ 60 * second ∧
      (60 * second < maxDuration ∨ 61 * second - timeUnixMilli (max 0 500) ≤ maxDuration) ∧
      (monitorTick (60 * second) (61 * second) 0 500 = true ↔
        61 * second - timeUnixMilli (max 0 500) > 60 * second) ∧
      (61 * second - timeUnixMilli 0 ≤ 60 * second ∨
          61 * second - timeUnixMilli 500 ≤ 60 * second →
        monitorTick (60 * second) (61 * second) 0 500 = false) ∧
      (61 * second - timeUnixMilli (max 0 500) = 60 * second →
        monitorTick (60 * second) (61 * second) 0 500 = false) :=
  ⟨by decide, Or.inl (by decide),
    monitorTick_iff (60 * second) (61 * second) 0 500 (by decide) (Or.inl (by decide))⟩

/-- C6: `Write(p)` returns what the wrapped writer returned for `p`, leaves
the wrapped writer in the state of one `Write(p)`, and sets the timestamp to
the clock reading of the call, whatever the writer answers; a recording
writer has received `p` once more, after what it held. -/
theorem write_passthrough {σ : Type} (sink : Writer σ) (t : WriteTracker σ) (now : Int)
    (p : List UInt8) (reply : List UInt8 → Int × Option GoError)
    (r : WriteTracker (List (List UInt8))) :
    (WriteTracker.Write sink t now p).1 = (sink.Write p t.w).1 ∧
      (WriteTracker.Write sink t now p).2.w = (sink.Write p t.w).2 ∧
      (WriteTracker.Write sink t now p).2.GetLastUnixMilli = unixMilli now ∧
      (WriteTracker.Write (recorder reply) r now p).1 = reply p ∧
      (WriteTracker.Write (recorder reply) r now p).2.w = r.w ++ [p] :=
  ⟨rfl, rfl, rfl, rfl, rfl⟩

/-- The timestamps observed along a sequence of writes are the clock
readings of the calls, in milliseconds. -/
theorem writeAll_eq_map {σ : Type} (sink : Writer σ) :
    ∀ (calls : List (Int × List UInt8)) (t : WriteTracker σ),
      WriteTracker.writeAll sink t calls = calls.map (fun c => unixMilli c.1)
  | [], _ => rfl
  | (now, p) :: rest, t => by
    simp only [WriteTracker.writeAll, List.map_cons]
    rw [writeAll_eq_map sink rest]
    rfl

/-- C9, refuted as stated: a tracker seeded at 5 ms whose next write reads
the clock at 3 ms holds a smaller timestamp after the write. -/
theorem getLastUnixMilli_decreases :
    (WriteTracker.Write (recorder (fun p => ((p.length : Int), none)))
        (WriteTracker.New [] true 5000000) 3000000 [0]).2.GetLastUnixMilli <
      (WriteTracker.New ([] : List (List UInt8)) true 5000000).GetLastUnixMilli := by
  decide

/-- C9, amended: when the clock readings of successive writes, in
milliseconds, start no lower than the stored timestamp and never step back,
the value of `GetLastUnixMilli` after each write is at least the value before
it. -/
theorem writeAll_monotone {σ : Type} (sink : Writer σ) (t : WriteTracker σ)
    (calls : List (Int × List UInt8))
    (h : List.Chain (fun x y => x ≤ y) t.GetLastUnixMilli
      (calls.map (fun c => unixMilli c.1))) :
    List.Chain (fun x y => x ≤ y) t.GetLastUnixMilli (WriteTracker.writeAll sink t calls) := by
  rw [writeAll_eq_map]
  exact h

/-- Witness of C9 amended: a tracker at 2 ms and writes at 3 ms and 7 ms. -/
theorem writeAll_monotone_witness :
    List.Chain (fun x y => x ≤ y)
        (WriteTracker.GetLastUnixMilli
          ({ lastUnixMilli := 2, w := [] } : WriteTracker (List (List UInt8))))
        ([((3000000 : Int), [(1 : UInt8)]), (7000000, [])].map (fun c => unixMilli c.1)) ∧
      List.Chain (fun x y => x ≤ y)
        (WriteTracker.GetLastUnixMilli
          ({ lastUnixMilli := 2, w := [] } : WriteTracker (List (List UInt8))))
        (WriteTracker.writeAll (recorder (fun p => ((p.length : Int), none)))
          { lastUnixMilli := 2, w := [] } [(3000000, [1]), (7000000, [])]) :=
  ⟨by simp [WriteTracker.GetLastUnixMilli, unixMilli],
    writeAll_monotone (recorder (fun p => ((p.length : Int), none)))
      { lastUnixMilli := 2, w := [] } [(3000000, [1]), (7000000, [])]
      (by simp [WriteTracker.GetLastUnixMilli, unixMilli])⟩

/-! ## The retry loop -/

theorem spawns_append (xs ys : List Event) : spawns (xs ++ ys) = spawns xs ++ spawns ys := by
  induction xs with
  | nil => rfl
  | cons e tr ih =>
    cases e with
    | start t ok => cases ok <;> simp [spawns, ih]
    | waiting t => simp [spawns, ih]

theorem restarts_append (xs ys : List Event) :
    restarts (xs ++ ys) = restarts xs ++ restarts ys := by
  induction xs with
  | nil => rfl
  | cons e tr ih =>
    cases e with
    | start t ok => simp [restarts, ih]
    | waiting t => simp [restarts, ih]

/-- A loop still running after the attempts `pre` goes on with the next
attempts, the counter advanced by their number. -/
theorem runLoop_append (f : Flags) (ctx : Option Int) :
    ∀ (pre : List Attempt) (tryNo : Nat) (rest : List Attempt),
      (runLoop f ctx tryNo pre).result = none →
      runLoop f ctx tryNo (pre ++ rest) =
        { result := (runLoop f ctx (tryNo + pre.length) rest).result,
          trace := (runLoop f ctx tryNo pre).trace ++
            (runLoop f ctx (tryNo + pre.length) rest).trace }
  | [], tryNo, rest, _ => by simp [runLoop]
  | a :: pre, tryNo, rest, h => by
    simp only [List.cons_append, runLoop] at h ⊢
    cases hi : iteration f.maxTries tryNo a with
    | none => simp [hi] at h
    | some err =>
      simp only [hi] at h ⊢
      cases hr : err.asRetryError with
      | none => simp [hr] at h
      | some e =>
        simp only [hr] at h ⊢
        cases hsl : sleepCtx ctx a.sleepAt f.waitRestart a.pick with
        | some serr => simp [hsl] at h
        | none =>
          simp only [hsl] at h ⊢
          have ih := runLoop_append f ctx pre (tryNo + 1) rest h
          simp only [List.append_eq] at ih ⊢
          rw [ih]
          simp [Nat.add_assoc, Nat.add_comm 1]

/-- The same for `run`: the attempt after a still running `pre` has number
`pre.length + 1`. -/
theorem run_append (f : Flags) (args : List String) (ctx : Option Int)
    (pre rest : List Attempt) (h : (run f args ctx pre).result = none) :
    run f args ctx (pre ++ rest) =
      { result := (runLoop f ctx (pre.length + 1) rest).result,
        trace := (run f args ctx pre).trace ++ (runLoop f ctx (pre.length + 1) rest).trace } := by
  unfold run at h ⊢
  by_cases ha : args.length = 0
  · simp [ha] at h
  · simp only [ha, if_false] at h ⊢
    rw [runLoop_append f ctx pre 1 rest h, Nat.add_comm 1]

theorem toGo_asRetryError (w : WaitError) : w.toGo.asRetryError = none := by
  cases w <;> rfl

/-- An iteration ends in a `retryError` only below the maximum. -/
theorem iteration_retry_lt (maxTries : Int) (tryNo : Nat) (a : Attempt) (err e : GoError)
    (hi : iteration maxTries tryNo a = some err) (hr : err.asRetryError = some e) :
    ¬ (maxTries > 0 ∧ (tryNo : Int) ≥ maxTries) := by
  intro hmax
  unfold iteration at hi
  cases hs : a.start with
  | some msg =>
    simp only [hs, Option.some.injEq] at hi
    subst hi
    simp [GoError.asRetryError] at hr
  | none =>
    cases hw : a.wait with
    | none => simp [hs, hw] at hi
    | some cmdErr =>
      simp only [hs, hw, hmax, and_self, if_true, Option.some.injEq] at hi
      subst hi
      rw [toGo_asRetryError] at hr
      exact Option.noConfusion hr

/-- An iteration that ends in a `retryError` started its process. -/
theorem iteration_retry_started (maxTries : Int) (tryNo : Nat) (a : Attempt) (e : GoError)
    (hi : iteration maxTries tryNo a = some (GoError.retryError e)) : a.start = none := by
  unfold iteration at hi
  cases hs : a.start with
  | some msg => simp [hs] at hi
  | none => rfl

/-- One retried iteration of the loop. -/
theorem runLoop_cons_stalled (f : Flags) (ctx : Option Int) (tryNo : Nat) (a : Attempt)
    (rest : List Attempt) (ha : a.stalled f ctx = true)
    (hM : ¬ (f.maxTries > 0 ∧ (tryNo : Int) ≥ f.maxTries)) :
    runLoop f ctx tryNo (a :: rest) =
      { result := (runLoop f ctx (tryNo + 1) rest).result,
        trace := Event.start tryNo true :: Event.waiting tryNo ::
          (runLoop f ctx (tryNo + 1) rest).trace } := by
  unfold Attempt.stalled at ha
  simp only [Bool.and_eq_true, Option.isNone_iff_eq_none, Option.isSome_iff_exists] at ha
  obtain ⟨⟨⟨hs, w, hw⟩, hc⟩, hsl⟩ := ha
  simp [runLoop, iteration, hs, hw, hc, hM, hsl, GoError.asRetryError]

/-- A run of retried attempts below the maximum leaves the loop running,
with one start and one announced restart per attempt. -/
theorem runLoop_stalled (f : Flags) (ctx : Option Int) :
    ∀ (pre : List Attempt) (tryNo : Nat),
      (∀ x ∈ pre, x.stalled f ctx = true) →
      (f.maxTries ≤ 0 ∨ (tryNo : Int) + pre.length ≤ f.maxTries) →
      (runLoop f ctx tryNo pre).result = none ∧
        spawns (runLoop f ctx tryNo pre).trace = List.range' tryNo pre.length ∧
        restarts (runLoop f ctx tryNo pre).trace = List.range' tryNo pre.length ∧
        (runLoop f ctx tryNo pre).trace.length = 2 * pre.length
  | [], tryNo, _, _ => by simp [runLoop, spawns, restarts]
  | a :: pre, tryNo, hall, hM => by
    have ha : a.stalled f ctx = true := hall a (List.mem_cons_self _ _)
    have hlt : ¬ (f.maxTries > 0 ∧ (tryNo : Int) ≥ f.maxTries) := by
      simp only [List.length_cons, Nat.cast_add, Nat.cast_one] at hM
      omega
    have ih := runLoop_stalled f ctx pre (tryNo + 1)
      (fun x hx => hall x (List.mem_cons_of_mem _ hx))
      (by simp only [List.length_cons, Nat.cast_add, Nat.cast_one] at hM ⊢; omega)
    rw [runLoop_cons_stalled f ctx tryNo a pre ha hlt]
    obtain ⟨h1, h2, h3, h4⟩ := ih
    refine ⟨h1, ?_, ?_, ?_⟩
    · simp [spawns, h2, List.range'_succ]
    · simp [restarts, h3, List.range'_succ]
    · simp [h4]; omega

/-- Every start in the loop entered at `tryNo ≤ maxTries` happens at an
attempt number up to the maximum, and at most `maxTries - tryNo + 1`
processes are started. -/
theorem runLoop_tries_le (f : Flags) (ctx : Option Int) (hM : 1 ≤ f.maxTries) :
    ∀ (envs : List Attempt) (tryNo : Nat), (tryNo : Int) ≤ f.maxTries →
      (∀ t ok, Event.start t ok ∈ (runLoop f ctx tryNo envs).trace → (t : Int) ≤ f.maxTries) ∧
        ((spawns (runLoop f ctx tryNo envs).trace).length : Int) + tryNo ≤ f.maxTries + 1
  | [], tryNo, h => by simp [runLoop, spawns]; omega
  | a :: rest, tryNo, h => by
    have hlen : ∀ ok, ((spawns [Event.start tryNo ok]).length : Int) ≤ 1 := by
      intro ok; cases ok <;> simp [spawns]
    simp only [runLoop]
    cases hi : iteration f.maxTries tryNo a with
    | none =>
      simp only [List.mem_singleton, Event.start.injEq]
      refine ⟨fun t ok ht => by rw [ht.1]; exact h, ?_⟩
      have := hlen a.start.isNone
      omega
    | some err =>
      simp only []
      cases hr : err.asRetryError with
      | none =>
        simp only [List.mem_singleton, Event.start.injEq]
        refine ⟨fun t ok ht => by rw [ht.1]; exact h, ?_⟩
        have := hlen a.start.isNone
        omega
      | some e =>
        simp only []
        have hlt := iteration_retry_lt f.maxTries tryNo a err e hi hr
        cases hsl : sleepCtx ctx a.sleepAt f.waitRestart a.pick with
        | some serr =>
          simp only [List.mem_cons, Event.start.injEq, List.mem_singleton, reduceCtorEq,
            or_false, List.not_mem_nil]
          refine ⟨fun t ok ht => by rw [ht.1]; exact h, ?_⟩
          have : spawns [Event.start tryNo a.start.isNone, Event.waiting tryNo] =
              spawns [Event.start tryNo a.start.isNone] := by
            cases a.start.isNone <;> rfl
          rw [this]
          have := hlen a.start.isNone
          omega
        | none =>
          simp only []
          have hnext : ((tryNo + 1 : Nat) : Int) ≤ f.maxTries := by
            push_cast
            by_contra hcon
            exact hlt ⟨by omega, by omega⟩
          have ih := runLoop_tries_le f ctx hM rest (tryNo + 1) hnext
          obtain ⟨ih1, ih2⟩ := ih
          constructor
          · intro t ok ht
            simp only [List.mem_cons, Event.start.injEq, reduceCtorEq, false_or] at ht
            rcases ht with ht | ht
            · rw [ht.1]; exact h
            · exact ih1 t ok ht
          · have : (spawns (Event.start tryNo a.start.isNone :: Event.waiting tryNo ::
                (runLoop f ctx (tryNo + 1) rest).trace)).length ≤
                (spawns (runLoop f ctx (tryNo + 1) rest).trace).length + 1 := by
              cases a.start.isNone <;> simp [spawns]
            push_cast at ih2
            omega

/-- C1: with a maximum of at least one, whatever the attempts and backoff
waits do, every call of `cmd.Start()` happens at an attempt number up to the
maximum, and at most that many processes are started. -/
theorem run_spawns_le_maxTries (f : Flags) (args : List String) (ctx : Option Int)
    (envs : List Attempt) (hM : 1 ≤ f.maxTries) :
    (∀ t ok, Event.start t ok ∈ (run f args ctx envs).trace → (t : Int) ≤ f.maxTries) ∧
      ((spawns (run f args ctx envs).trace).length : Int) ≤ f.maxTries := by
  unfold run
  by_cases ha : args.length = 0
  · simp only [ha, if_true, List.not_mem_nil, false_imp_iff, implies_true, true_and]
    simp only [spawns, List.length_nil, Nat.cast_zero]
    omega
  · simp only [ha, if_false]
    have h := runLoop_tries_le f ctx hM envs 1 (by simpa using hM)
    refine ⟨h.1, ?_⟩
    have h2 := h.2
    push_cast at h2
    omega

/-- Witness of C1: the flags of `TestRetryFail` and five attempts killed by the monitor. -/
theorem run_spawns_le_maxTries_witness :
    1 ≤ retryFailFlags.maxTries ∧
      (∀ t ok, Event.start t ok ∈ (run retryFailFlags ["ping"] none
          [stallKilled, stallKilled, stallKilled, stallKilled, stallKilled]).trace →
        (t : Int) ≤ retryFailFlags.maxTries) ∧
      ((spawns (run retryFailFlags ["ping"] none
          [stallKilled, stallKilled, stallKilled, stallKilled, stallKilled]).trace).length : Int) ≤
        retryFailFlags.maxTries :=
  ⟨by decide, run_spawns_le_maxTries retryFailFlags ["ping"] none
    [stallKilled, stallKilled, stallKilled, stallKilled, stallKilled] (by decide)⟩

/-- C2: at any attempt reached by `run` and for any `max-tries`, a process
that exits with an error while the attempt's context is not closed ends the
run: `run` returns that exit error, the trace gains the start only (no backoff
wait, no further start), and `main` exits with the child's exit code; the
loop does the same when entered at any value of its counter. -/
theorem run_exit_error_not_retried (f : Flags) (args : List String) (ctx : Option Int)
    (pre : List Attempt) (a : Attempt) (rest : List Attempt) (code : Int) (state : String)
    (hpre : (run f args ctx pre).result = none)
    (hs : a.start = none) (hw : a.wait = some (WaitError.exit code state))
    (hc : a.cmdCtxClosed = false) :
    run f args ctx (pre ++ a :: rest) =
        { result := some (some (GoError.exitError code state)),
          trace := (run f args ctx pre).trace ++ [Event.start (pre.length + 1) true] } ∧
      main f args ctx (pre ++ a :: rest) = some code ∧
      ∀ tryNo : Nat, runLoop f ctx tryNo (a :: rest) =
        { result := some (some (GoError.exitError code state)),
          trace := [Event.start tryNo true] } := by
  have hrun := run_append f args ctx pre (a :: rest) hpre
  have hstep : ∀ tryNo : Nat, runLoop f ctx tryNo (a :: rest) =
      { result := some (some (GoError.exitError code state)),
        trace := [Event.start tryNo true] } := by
    intro tryNo
    simp [runLoop, iteration, hs, hw, hc, WaitError.toGo, GoError.asRetryError]
  rw [hstep] at hrun
  refine ⟨hrun, ?_, hstep⟩
  unfold main
  rw [hrun]
  simp [mainExit, GoError.asExitError]

/-- Witness of C2: no maximum, one stall, then a process that exits with status 2 as in `TestFailRun`. -/
theorem run_exit_error_not_retried_witness :
    (run defaultFlags ["ping"] none [stallKilled]).result = none ∧
      exitedTwo.start = none ∧ exitedTwo.wait = some (WaitError.exit 2 "exit status 2") ∧
      exitedTwo.cmdCtxClosed = false ∧
      run defaultFlags ["ping"] none ([stallKilled] ++ exitedTwo :: [exitedZero]) =
        { result := some (some (GoError.exitError 2 "exit status 2")),
          trace := (run defaultFlags ["ping"] none [stallKilled]).trace ++
            [Event.start ([stallKilled].length + 1) true] } ∧
      main defaultFlags ["ping"] none ([stallKilled] ++ exitedTwo :: [exitedZero]) = some 2 ∧
      ∀ tryNo : Nat, runLoop defaultFlags none tryNo (exitedTwo :: [exitedZero]) =
        { result := some (some (GoError.exitError 2 "exit status 2")),
          trace := [Event.start tryNo true] } :=
  ⟨by decide, rfl, rfl, rfl,
    run_exit_error_not_retried defaultFlags ["ping"] none [stallKilled] exitedTwo [exitedZero]
      2 "exit status 2" (by decide) rfl rfl rfl⟩

/-- C3: with maximum `M = pre.length + 1`, after `M - 1` retried attempts,
an attempt `M` whose process ends with an exit error makes `run` return that
error itself, whether or not the attempt's context is closed, and `main`
exits with its exit code; attempts `1..M` were started and no backoff wait
follows the last one. -/
theorem run_exhausted_returns_last_error (f : Flags) (args : List String) (ctx : Option Int)
    (pre : List Attempt) (a : Attempt) (rest : List Attempt) (code : Int) (state : String)
    (hargs : args ≠ [])
    (hM : f.maxTries = (pre.length : Int) + 1)
    (hpre : ∀ x ∈ pre, x.stalled f ctx = true)
    (hs : a.start = none) (hw : a.wait = some (WaitError.exit code state)) :
    (run f args ctx (pre ++ a :: rest)).result = some (some (GoError.exitError code state)) ∧
      main f args ctx (pre ++ a :: rest) = some code ∧
      spawns (run f args ctx (pre ++ a :: rest)).trace = List.range' 1 (pre.length + 1) ∧
      restarts (run f args ctx (pre ++ a :: rest)).trace = List.range' 1 pre.length := by
  have hne : ¬ args.length = 0 := by
    intro h; exact hargs (List.length_eq_zero.mp h)
  have hst := runLoop_stalled f ctx pre 1 hpre (Or.inr (by rw [hM]; push_cast; omega))
  obtain ⟨h1, h2, h3, _⟩ := hst
  have hrunpre : run f args ctx pre = runLoop f ctx 1 pre := by simp [run, hne]
  have hrun := run_append f args ctx pre (a :: rest) (by rw [hrunpre]; exact h1)
  have hmax : f.maxTries > 0 ∧ ((pre.length + 1 : Nat) : Int) ≥ f.maxTries := by
    rw [hM]; push_cast; omega
  have hstep : runLoop f ctx (pre.length + 1) (a :: rest) =
      { result := some (some (GoError.exitError code state)),
        trace := [Event.start (pre.length + 1) true] } := by
    simp only [runLoop, iteration, hs, hw, hmax, and_self, if_true, WaitError.toGo,
      GoError.asRetryError, Option.isNone_none]
  rw [hstep, hrunpre] at hrun
  refine ⟨by rw [hrun], ?_, ?_, ?_⟩
  · unfold main
    rw [hrun]
    simp [mainExit, GoError.asExitError]
  · rw [hrun]
    simp only [spawns_append, h2, spawns]
    rw [List.range'_concat, Nat.add_comm 1]
    simp
  · rw [hrun]
    simp only [restarts_append, h3, restarts, List.append_nil]

/-- Witness of C3: `TestRetryFail`, three attempts killed by the monitor with a maximum of three. -/
theorem run_exhausted_returns_last_error_witness :
    ["ping"] ≠ [] ∧ retryFailFlags.maxTries = ([stallKilled, stallKilled].length : Int) + 1 ∧
      (∀ x ∈ [stallKilled, stallKilled], x.stalled retryFailFlags none = true) ∧
      stallKilled.start = none ∧
      stallKilled.wait = some (WaitError.exit (-1) "signal: killed") ∧
      (run retryFailFlags ["ping"] none
          ([stallKilled, stallKilled] ++ stallKilled :: [exitedZero])).result =
        some (some (GoError.exitError (-1) "signal: killed")) ∧
      main retryFailFlags ["ping"] none
          ([stallKilled, stallKilled] ++ stallKilled :: [exitedZero]) = some (-1) ∧
      spawns (run retryFailFlags ["ping"] none
          ([stallKilled, stallKilled] ++ stallKilled :: [exitedZero])).trace =
        List.range' 1 ([stallKilled, stallKilled].length + 1) ∧
      restarts (run retryFailFlags ["ping"] none
          ([stallKilled, stallKilled] ++ stallKilled :: [exitedZero])).trace =
        List.range' 1 [stallKilled, stallKilled].length :=
  ⟨by decide, by decide, by decide, rfl, rfl,
    run_exhausted_returns_last_error retryFailFlags ["ping"] none [stallKilled, stallKilled]
      stallKilled [exitedZero] (-1) "signal: killed" (by decide) (by decide) (by decide) rfl rfl⟩

/-- C4: with `k = pre.length` attempts that each end with a process error
under a closed attempt context and a backoff wait that ends on its timer,
a maximum that is zero or above `k`, and an attempt `k + 1` whose process
exits zero, `run` returns no error and `main` exits with 0; the processes
started are those of attempts `1..k+1`, the restarts announced are `#1..#k`,
and the trace holds nothing else. -/
theorem run_retries_then_success (f : Flags) (args : List String) (ctx : Option Int)
    (pre : List Attempt) (a : Attempt) (rest : List Attempt)
    (hargs : args ≠ [])
    (hM : f.maxTries = 0 ∨ (pre.length : Int) < f.maxTries)
    (hpre : ∀ x ∈ pre, x.stalled f ctx = true)
    (hs : a.start = none) (hw : a.wait = none) :
    (run f args ctx (pre ++ a :: rest)).result = some none ∧
      main f args ctx (pre ++ a :: rest) = some 0 ∧
      spawns (run f args ctx (pre ++ a :: rest)).trace = List.range' 1 (pre.length + 1) ∧
      restarts (run f args ctx (pre ++ a :: rest)).trace = List.range' 1 pre.length ∧
      (run f args ctx (pre ++ a :: rest)).trace.length = 2 * pre.length + 1 := by
  have hne : ¬ args.length = 0 := by
    intro h; exact hargs (List.length_eq_zero.mp h)
  have hst := runLoop_stalled f ctx pre 1 hpre (by
    rcases hM with h | h
    · exact Or.inl (by omega)
    · exact Or.inr (by push_cast; omega))
  obtain ⟨h1, h2, h3, h4⟩ := hst
  have hrunpre : run f args ctx pre = runLoop f ctx 1 pre := by simp [run, hne]
  have hrun := run_append f args ctx pre (a :: rest) (by rw [hrunpre]; exact h1)
  have hstep : runLoop f ctx (pre.length + 1) (a :: rest) =
      { result := some none, trace := [Event.start (pre.length + 1) true] } := by
    simp [runLoop, iteration, hs, hw]
  rw [hstep, hrunpre] at hrun
  refine ⟨by rw [hrun], ?_, ?_, ?_, ?_⟩
  · unfold main
    rw [hrun]
    simp [mainExit]
  · rw [hrun]
    simp only [spawns_append, h2, spawns]
    rw [List.range'_concat, Nat.add_comm 1]
    simp
  · rw [hrun]
    simp only [restarts_append, h3, restarts, List.append_nil]
  · rw [hrun]
    simp [h4]

/-- Witness of C4: `TestRetrySuccess`, three stalls and then an exit zero under a maximum of twenty. -/
theorem run_retries_then_success_witness :
    ["bash"] ≠ [] ∧
      (retrySuccessFlags.maxTries = 0 ∨
        ([stallKilled, stallKilled, stallKilled].length : Int) < retrySuccessFlags.maxTries) ∧
      (∀ x ∈ [stallKilled, stallKilled, stallKilled], x.stalled retrySuccessFlags none = true) ∧
      exitedZero.start = none ∧ exitedZero.wait = none ∧
      (run retrySuccessFlags ["bash"] none
          ([stallKilled, stallKilled, stallKilled] ++ exitedZero :: [])).result = some none ∧
      main retrySuccessFlags ["bash"] none
          ([stallKilled, stallKilled, stallKilled] ++ exitedZero :: []) = some 0 ∧
      spawns (run retrySuccessFlags ["bash"] none
          ([stallKilled, stallKilled, stallKilled] ++ exitedZero :: [])).trace =
        List.range' 1 ([stallKilled, stallKilled, stallKilled].length + 1) ∧
      restarts (run retrySuccessFlags ["bash"] none
          ([stallKilled, stallKilled, stallKilled] ++ exitedZero :: [])).trace =
        List.range' 1 [stallKilled, stallKilled, stallKilled].length ∧
      (run retrySuccessFlags ["bash"] none
          ([stallKilled, stallKilled, stallKilled] ++ exitedZero :: [])).trace.length =
        2 * [stallKilled, stallKilled, stallKilled].length + 1 :=
  ⟨by decide, by decide, by decide, rfl, rfl,
    run_retries_then_success retrySuccessFlags ["bash"] none
      [stallKilled, stallKilled, stallKilled] exitedZero [] (by decide) (by decide) (by decide)
      rfl rfl⟩

/-- C7: when the attempt after a still running `pre` ends in a
`retryError`, the backoff has a positive duration and the root context is
cancelled at an instant `c` before the timer fires (at the start of the wait
or earlier included), `sleepCtx` returns the context's error, `run` returns
the `sleep cancelled` error with the trace ending at the announced wait (no
further start), and `main` exits with 1. -/
theorem run_sleep_cancelled (f : Flags) (args : List String) (c : Int)
    (pre : List Attempt) (a : Attempt) (rest : List Attempt) (e : GoError)
    (hpre : (run f args (some c) pre).result = none)
    (hit : iteration f.maxTries (pre.length + 1) a = some (GoError.retryError e))
    (hpos : 0 < f.waitRestart)
    (hc : c < a.sleepAt + f.waitRestart) :
    sleepCtx (some c) a.sleepAt f.waitRestart a.pick = some ctxCanceled ∧
      run f args (some c) (pre ++ a :: rest) =
        { result := some (some (GoError.plain "sleep cancelled: context canceled")),
          trace := (run f args (some c) pre).trace ++
            [Event.start (pre.length + 1) true, Event.waiting (pre.length + 1)] } ∧
      main f args (some c) (pre ++ a :: rest) = some 1 := by
  have hsl : sleepCtx (some c) a.sleepAt f.waitRestart a.pick = some ctxCanceled := by
    unfold sleepCtx
    have hmax : max f.waitRestart 0 = f.waitRestart := max_eq_left hpos.le
    have hlt : max c a.sleepAt < a.sleepAt + f.waitRestart := max_lt hc (by omega)
    simp only [hmax, hlt, if_true]
  have hs := iteration_retry_started f.maxTries (pre.length + 1) a e hit
  have hrun := run_append f args (some c) pre (a :: rest) hpre
  have hstep : runLoop f (some c) (pre.length + 1) (a :: rest) =
      { result := some (some (GoError.plain "sleep cancelled: context canceled")),
        trace := [Event.start (pre.length + 1) true, Event.waiting (pre.length + 1)] } := by
    simp only [runLoop, hit, GoError.asRetryError, hsl, hs, Option.isNone_none]
    rfl
  rw [hstep] at hrun
  refine ⟨hsl, hrun, ?_⟩
  unfold main
  rw [hrun]
  simp [mainExit, GoError.asExitError]

/-- Witness of C7: a first stall retried at second 0, a second one whose
backoff wait of 10 s starts at second 100, and a signal at second 103. -/
theorem run_sleep_cancelled_witness :
    (run defaultFlags ["ping"] (some (103 * second)) [stallKilled]).result = none ∧
      iteration defaultFlags.maxTries ([stallKilled].length + 1) (stallKilledAt (100 * second)) =
        some (GoError.retryError (GoError.exitError (-1) "signal: killed")) ∧
      0 < defaultFlags.waitRestart ∧
      103 * second < (stallKilledAt (100 * second)).sleepAt + defaultFlags.waitRestart ∧
      sleepCtx (some (103 * second)) (stallKilledAt (100 * second)).sleepAt
          defaultFlags.waitRestart (stallKilledAt (100 * second)).pick = some ctxCanceled ∧
      run defaultFlags ["ping"] (some (103 * second))
          ([stallKilled] ++ stallKilledAt (100 * second) :: [exitedZero]) =
        { result := some (some (GoError.plain "sleep cancelled: context canceled")),
          trace := (run defaultFlags ["ping"] (some (103 * second)) [stallKilled]).trace ++
            [Event.start ([stallKilled].length + 1) true,
              Event.waiting ([stallKilled].length + 1)] } ∧
      main defaultFlags ["ping"] (some (103 * second))
          ([stallKilled] ++ stallKilledAt (100 * second) :: [exitedZero]) = some 1 :=
  ⟨by decide, by decide, by decide, by decide,
    run_sleep_cancelled defaultFlags ["ping"] (103 * second) [stallKilled]
      (stallKilledAt (100 * second)) [exitedZero]
      (GoError.exitError (-1) "signal: killed") (by decide) (by decide) (by decide) (by decide)⟩

/-- C8: at any attempt reached by `run` and for any `max-tries`, a failing
`cmd.Start()` ends the run: `run` returns the start error, the trace gains
the failed start only (no backoff wait, no further start), and `main` exits
with 1; the loop does the same when entered at any value of its counter. -/
theorem run_start_failure_fatal (f : Flags) (args : List String) (ctx : Option Int)
    (pre : List Attempt) (a : Attempt) (rest : List Attempt) (msg : String)
    (hpre : (run f args ctx pre).result = none)
    (hs : a.start = some msg) :
    run f args ctx (pre ++ a :: rest) =
        { result := some (some (GoError.plain msg)),
          trace := (run f args ctx pre).trace ++ [Event.start (pre.length + 1) false] } ∧
      main f args ctx (pre ++ a :: rest) = some 1 ∧
      ∀ tryNo : Nat, runLoop f ctx tryNo (a :: rest) =
        { result := some (some (GoError.plain msg)), trace := [Event.start tryNo false] } := by
  have hrun := run_append f args ctx pre (a :: rest) hpre
  have hstep : ∀ tryNo : Nat, runLoop f ctx tryNo (a :: rest) =
      { result := some (some (GoError.plain msg)), trace := [Event.start tryNo false] } := by
    intro tryNo
    simp [runLoop, iteration, hs, GoError.asRetryError]
  rw [hstep] at hrun
  refine ⟨hrun, ?_, hstep⟩
  unfold main
  rw [hrun]
  simp [mainExit, GoError.asExitError]

/-- Witness of C8: `TestFailStart`, the first start fails under the default flags. -/
theorem run_start_failure_fatal_witness :
    (run defaultFlags ["hahahahahaha"] none ([] : List Attempt)).result = none ∧
      startFailed.start =
        some "exec: hahahahahaha: executable file not found in $PATH" ∧
      run defaultFlags ["hahahahahaha"] none (([] : List Attempt) ++ startFailed :: [exitedZero]) =
        { result := some (some (GoError.plain
            "exec: hahahahahaha: executable file not found in $PATH")),
          trace := (run defaultFlags ["hahahahahaha"] none ([] : List Attempt)).trace ++
            [Event.start (([] : List Attempt).length + 1) false] } ∧
      main defaultFlags ["hahahahahaha"] none
          (([] : List Attempt) ++ startFailed :: [exitedZero]) = some 1 ∧
      ∀ tryNo : Nat, runLoop defaultFlags none tryNo (startFailed :: [exitedZero]) =
        { result := some (some (GoError.plain
            "exec: hahahahahaha: executable file not found in $PATH")),
          trace := [Event.start tryNo false] } :=
  ⟨by decide, rfl,
    run_start_failure_fatal defaultFlags ["hahahahahaha"] none [] startFailed [exitedZero]
      "exec: hahahahahaha: executable file not found in $PATH" (by decide) rfl⟩

end Nostall
